import Mathlib

/-!
Shallow embedding of the Treasury canister
(`src/treasury/src/api/updates.rs`, `queries.rs`, `lib.rs`).

Principals are modelled by their textual rendering (an opaque identifier);
`Principal.anonymous` is the distinguished anonymous/null sentinel.
u64 quantities are modelled as `Nat`; the one place the Rust code performs
u64 arithmetic (the batch total, a `sum()` over u64 in a release build)
is modelled with wrap-around, i.e. modulo 2^64.  `NumTokens` (an
arbitrary-precision candid natural) is modelled as `Nat`.  Remote calls
(the management-canister `canister_status` identity oracle, the ledger's
`icrc1_balance_of` and `icrc1_transfer`) are modelled by an environment
`Env` recording each call's outcome; numeric and principal renderings in
`format!` messages are modelled by decimal `toString` and the principal's
text.  The stable `StableBTreeMap<u64, TransferHistory>` is modelled as a
key-sorted association list with `btreeInsert` as its `insert`.
-/

namespace Treasury

/-- An opaque principal identifier, modelled by its textual rendering. -/
structure Principal where
  toText : String
deriving DecidableEq, Repr

/-- The anonymous/null sentinel principal (`Principal::anonymous()`). -/
def Principal.anonymous : Principal := ⟨"2vxsx-fae"⟩

/-- `struct TransferToPrincipal` of `updates.rs`: a single transfer request. -/
structure TransferToPrincipal where
  receiving_principal : Principal
  amount : Nat
  ledger_id : Principal
deriving DecidableEq, Repr

/-- `struct PrincipalTransfer` of `updates.rs`: one recipient of a batch. -/
structure PrincipalTransfer where
  receiving_principal : Principal
  amount : Nat
deriving DecidableEq, Repr

/-- `struct TransferToMultiple` of `updates.rs`: a batch transfer request. -/
structure TransferToMultiple where
  principals : List PrincipalTransfer
  ledger_id : Principal
deriving DecidableEq, Repr

/-- `enum TransferHistory` of `updates.rs`: one history record, the request
stored verbatim. -/
inductive TransferHistory where
  | TransferToPrincipal (t : TransferToPrincipal)
  | TransferToMultiple (t : TransferToMultiple)
deriving DecidableEq, Repr

/-- The `TransferArg` built for one `icrc1_transfer` call, keeping the fields
the code computes (`fee`, `memo` and both subaccounts are the constant `None`
in the source and are omitted). -/
structure LedgerCall where
  ledger : Principal
  to_owner : Principal
  amount : Nat
  created_at_time : Nat
deriving DecidableEq, Repr

/-- The history map `StableBTreeMap<u64, TransferHistory>`, as a key-sorted
association list. -/
def Hist := List (Nat × TransferHistory)

/-- Insertion into the key-ordered map, replacing an existing key
(`StableBTreeMap::insert`). -/
def btreeInsert (k : Nat) (v : TransferHistory) : List (Nat × TransferHistory) → List (Nat × TransferHistory)
  | [] => [(k, v)]
  | (k', v') :: rest =>
    if k < k' then (k, v) :: (k', v') :: rest
    else if k = k' then (k, v) :: rest
    else (k', v') :: btreeInsert k v rest

/-- Outcomes of the remote calls one request can make: the caller identity,
the `canister_status` oracle (its `Ok` lists the controllers, its `Err` is
the `format!("{:?}", error)` rendering), the ledger's balance query and its
transfer call (each already folded through the code's `map_err` renderings),
and the host clock `time()`. -/
structure Env where
  caller : Principal
  oracle : Except String (List Principal)
  balance : Principal → Except String Nat
  ledger : LedgerCall → Except String Nat
  now : Nat

/-- Everything observable about one execution of a mutating endpoint: its
returned value, the history map after the call, the ledger transfer calls it
issued in order, and how many balance queries it made. -/
structure ExecResult (α : Type) where
  result : Except String α
  history : List (Nat × TransferHistory)
  calls : List LedgerCall
  balanceQueries : Nat

/-- Rust `str::contains` (substring containment) on the rendered strings,
as used by `is_controller`'s fallback. -/
def containsAux (pat : List Char) : List Char → Bool
  | [] => pat.isEmpty
  | c :: rest => pat.isPrefixOf (c :: rest) || containsAux pat rest

/-- `error_message.contains(&principal.to_string())` of `updates.rs`. -/
def strContains (s pat : String) : Bool := containsAux pat.data s.data

/-- `is_controller` of `updates.rs`: membership in the controller set the
oracle reports, falling back on oracle failure to searching the rendered
error text for the caller's own principal text. -/
def is_controller (env : Env) (principal : Principal) : Bool :=
  match env.oracle with
  | .ok status => status.contains principal
  | .error error => strContains error principal.toText

/-- The per-recipient zero-amount scan of `validate_transfer_to_multiple`:
the source loop returns on the first recipient whose amount is 0. -/
def checkAmounts : List PrincipalTransfer → Except String Unit
  | [] => .ok ()
  | p :: rest =>
    if p.amount = 0 then
      .error ("Transfer amount for principal " ++ p.receiving_principal.toText ++ " must be greater than 0")
    else checkAmounts rest

/-- The batch total `let total_amount: u64 = arg.principals.iter().map(|p| p.amount).sum()`:
a u64 sum, which in a release build wraps, i.e. is taken modulo 2^64. -/
def batchTotal (ps : List PrincipalTransfer) : Nat :=
  (ps.map PrincipalTransfer.amount).sum % 2 ^ 64

/-- `validate_transfer_to_multiple` of `updates.rs`: non-empty recipient
list, every amount non-zero, ledger not anonymous; on success the summary
string.  (The source performs no authorization check here and does not
examine recipients for anonymity.) -/
def validate_transfer_to_multiple (arg : TransferToMultiple) : Except String String :=
  if arg.principals = [] then .error "No principals provided for transfer"
  else
    match checkAmounts arg.principals with
    | .error e => .error e
    | .ok _ =>
      if arg.ledger_id = Principal.anonymous then .error "Invalid ledger ID"
      else
        .ok ("Transfer " ++ toString (batchTotal arg.principals) ++ " tokens to "
          ++ toString arg.principals.length ++ " recipients from ledger " ++ arg.ledger_id.toText)

/-- `validate_transfer_to_principal` of `updates.rs`: amount non-zero,
destination not anonymous, ledger not anonymous; on success the summary
string.  (The source performs no authorization check here.) -/
def validate_transfer_to_principal (arg : TransferToPrincipal) : Except String String :=
  if arg.amount = 0 then .error "Transfer amount must be greater than 0"
  else if arg.receiving_principal = Principal.anonymous then .error "Cannot transfer to anonymous principal"
  else if arg.ledger_id = Principal.anonymous then .error "Invalid ledger ID"
  else
    .ok ("Transfer " ++ toString arg.amount ++ " tokens to principal "
      ++ arg.receiving_principal.toText ++ " from ledger " ++ arg.ledger_id.toText)

/-- The `TransferArg` `transfer_to_principal` builds for its one ledger call. -/
def mkSingleCall (env : Env) (arg : TransferToPrincipal) : LedgerCall :=
  { ledger := arg.ledger_id, to_owner := arg.receiving_principal, amount := arg.amount, created_at_time := env.now }

/-- The `TransferArg` the batch loop builds for one recipient. -/
def mkBatchCall (env : Env) (ledger : Principal) (p : PrincipalTransfer) : LedgerCall :=
  { ledger := ledger, to_owner := p.receiving_principal, amount := p.amount, created_at_time := env.now }

/-- The recipient loop of `transfer_to_multiple`: one `transfer_tokens` call
per recipient in order, aborting on the first failure via `?`.  Returns the
loop's outcome and the calls actually issued. -/
def runBatchCalls (env : Env) (ledger : Principal) : List PrincipalTransfer → Except String Unit × List LedgerCall
  | [] => (.ok (), [])
  | p :: rest =>
    let c := mkBatchCall env ledger p
    match env.ledger c with
    | .error e => (.error e, [c])
    | .ok _ =>
      let r := runBatchCalls env ledger rest
      (r.1, c :: r.2)

/-- `transfer_to_principal` of `updates.rs`: guard, validate, balance check,
one ledger transfer, then (on success only) read the map's length and insert
the record at length + 1. -/
def transfer_to_principal (env : Env) (arg : TransferToPrincipal) (hist : List (Nat × TransferHistory)) : ExecResult Nat :=
  if is_controller env env.caller then
    match validate_transfer_to_principal arg with
    | .error e => { result := .error e, history := hist, calls := [], balanceQueries := 0 }
    | .ok _ =>
      match env.balance arg.ledger_id with
      | .error e => { result := .error e, history := hist, calls := [], balanceQueries := 1 }
      | .ok balance =>
        if balance < arg.amount then
          { result := .error ("Insufficient balance: " ++ toString balance ++ " tokens available, "
              ++ toString arg.amount ++ " tokens requested"),
            history := hist, calls := [], balanceQueries := 1 }
        else
          match env.ledger (mkSingleCall env arg) with
          | .error e => { result := .error e, history := hist, calls := [mkSingleCall env arg], balanceQueries := 1 }
          | .ok block_index =>
            { result := .ok block_index,
              history := btreeInsert (hist.length + 1) (TransferHistory.TransferToPrincipal arg) hist,
              calls := [mkSingleCall env arg], balanceQueries := 1 }
  else { result := .error "Caller is not a controller", history := hist, calls := [], balanceQueries := 0 }

/-- `transfer_to_multiple` of `updates.rs`: guard, validate, balance check
against the (wrapping) batch total, the recipient loop, then (only when the
loop finished without error) read the map's length and insert the whole
batch as one record at length + 1. -/
def transfer_to_multiple (env : Env) (arg : TransferToMultiple) (hist : List (Nat × TransferHistory)) : ExecResult Unit :=
  if is_controller env env.caller then
    match validate_transfer_to_multiple arg with
    | .error e => { result := .error e, history := hist, calls := [], balanceQueries := 0 }
    | .ok _ =>
      match env.balance arg.ledger_id with
      | .error e => { result := .error e, history := hist, calls := [], balanceQueries := 1 }
      | .ok balance =>
        if balance < batchTotal arg.principals then
          { result := .error ("Insufficient balance: " ++ toString balance ++ " tokens available, "
              ++ toString (batchTotal arg.principals) ++ " tokens requested"),
            history := hist, calls := [], balanceQueries := 1 }
        else
          let r := runBatchCalls env arg.ledger_id arg.principals
          match r.1 with
          | .error e => { result := .error e, history := hist, calls := r.2, balanceQueries := 1 }
          | .ok _ =>
            { result := .ok (),
              history := btreeInsert (hist.length + 1) (TransferHistory.TransferToMultiple arg) hist,
              calls := r.2, balanceQueries := 1 }
  else { result := .error "Caller is not a controller", history := hist, calls := [], balanceQueries := 0 }

/-- `get_transfer_history` of `queries.rs`: the records in ascending key
order. -/
def get_transfer_history (hist : List (Nat × TransferHistory)) : List TransferHistory :=
  hist.map Prod.snd

end Treasury

namespace Treasury

/-- A requested map key larger than every key present makes `btreeInsert` an
append at the back. -/
theorem btreeInsert_append (k : Nat) (v : TransferHistory) :
    ∀ m : List (Nat × TransferHistory), (∀ kv ∈ m, kv.1 < k) → btreeInsert k v m = m ++ [(k, v)]
  | [], _ => rfl
  | (k', v') :: rest, h => by
    have hk' : k' < k := h (k', v') (by simp)
    have h1 : ¬ k < k' := by omega
    have h2 : ¬ k = k' := by omega
    simp only [btreeInsert, if_neg h1, if_neg h2, List.cons_append, List.cons.injEq, true_and]
    exact btreeInsert_append k v rest (fun kv hkv => h kv (by simp [hkv]))

/-- An `Except` is `isOk` exactly when it is an `ok`. -/
theorem exceptIsOk_iff {ε α : Type} (e : Except ε α) : e.isOk = true ↔ ∃ a, e = .ok a := by
  cases e <;> simp [Except.isOk, Except.toBool]

/-- When every recipient's ledger call succeeds, the batch loop succeeds and
issues exactly one call per recipient, in order. -/
theorem runBatchCalls_ok (env : Env) (ledger : Principal) :
    ∀ ps : List PrincipalTransfer,
      (∀ q ∈ ps, (env.ledger (mkBatchCall env ledger q)).isOk = true) →
      runBatchCalls env ledger ps = (.ok (), ps.map (mkBatchCall env ledger))
  | [], _ => rfl
  | p :: rest, h => by
    obtain ⟨blk, hblk⟩ := (exceptIsOk_iff _).mp (h p (by simp))
    have ih := runBatchCalls_ok env ledger rest (fun q hq => h q (by simp [hq]))
    simp only [runBatchCalls, hblk, ih, List.map_cons]

/-- When the calls for `pre` succeed and `p`'s call fails, the batch loop
stops at `p`: it reports `p`'s error and has issued exactly the calls for
`pre ++ [p]`, none for `post`. -/
theorem runBatchCalls_fail (env : Env) (ledger : Principal) (p : PrincipalTransfer)
    (post : List PrincipalTransfer) (e : String) :
    ∀ pre : List PrincipalTransfer,
      (∀ q ∈ pre, (env.ledger (mkBatchCall env ledger q)).isOk = true) →
      env.ledger (mkBatchCall env ledger p) = .error e →
      runBatchCalls env ledger (pre ++ p :: post) =
        (.error e, (pre ++ [p]).map (mkBatchCall env ledger))
  | [], _, hp => by simp only [List.nil_append, runBatchCalls, hp, List.map_cons, List.map_nil]
  | q :: pre, h, hp => by
    obtain ⟨blk, hblk⟩ := (exceptIsOk_iff _).mp (h q (by simp))
    have ih := runBatchCalls_fail env ledger p post e pre (fun r hr => h r (by simp [hr])) hp
    simp only [List.cons_append, runBatchCalls, hblk, List.append_eq, ih, List.map_cons]

end Treasury

namespace Treasury

theorem transfer_to_principal_hist (env : Env) (arg : TransferToPrincipal)
    (h1 h2 : List (Nat × TransferHistory)) :
    (transfer_to_principal env arg h1).result = (transfer_to_principal env arg h2).result ∧
    ((transfer_to_principal env arg h1).result.isOk = true →
      (transfer_to_principal env arg h1).history =
        btreeInsert (h1.length + 1) (TransferHistory.TransferToPrincipal arg) h1) ∧
    ((transfer_to_principal env arg h1).result.isOk = false →
      (transfer_to_principal env arg h1).history = h1) := by
  unfold transfer_to_principal
  cases hic : is_controller env env.caller
  · simp [Except.isOk, Except.toBool]
  · cases hv : validate_transfer_to_principal arg
    · simp [Except.isOk, Except.toBool]
    · cases hb : env.balance arg.ledger_id
      · simp [Except.isOk, Except.toBool]
      · rename_i b
        by_cases hlt : b < arg.amount
        · simp [hlt, Except.isOk, Except.toBool]
        · cases hl : env.ledger (mkSingleCall env arg) <;>
            simp [hlt, hl, Except.isOk, Except.toBool]

theorem transfer_to_multiple_hist (env : Env) (arg : TransferToMultiple)
    (h1 h2 : List (Nat × TransferHistory)) :
    (transfer_to_multiple env arg h1).result = (transfer_to_multiple env arg h2).result ∧
    ((transfer_to_multiple env arg h1).result.isOk = true →
      (transfer_to_multiple env arg h1).history =
        btreeInsert (h1.length + 1) (TransferHistory.TransferToMultiple arg) h1) ∧
    ((transfer_to_multiple env arg h1).result.isOk = false →
      (transfer_to_multiple env arg h1).history = h1) := by
  unfold transfer_to_multiple
  cases hic : is_controller env env.caller
  · simp [Except.isOk, Except.toBool]
  · cases hv : validate_transfer_to_multiple arg
    · simp [Except.isOk, Except.toBool]
    · cases hb : env.balance arg.ledger_id
      · simp [Except.isOk, Except.toBool]
      · rename_i b
        by_cases hlt : b < batchTotal arg.principals
        · simp [hlt, Except.isOk, Except.toBool]
        · cases hl : (runBatchCalls env arg.ledger_id arg.principals).1 <;>
            simp [hlt, hl, Except.isOk, Except.toBool]

end Treasury

namespace Treasury

/-- One inbound execute request, single or batch. -/
inductive Request where
  | single (t : TransferToPrincipal)
  | batch (t : TransferToMultiple)

/-- The history record a successful execute appends for a request. -/
def recordOf : Request → TransferHistory
  | .single t => TransferHistory.TransferToPrincipal t
  | .batch t => TransferHistory.TransferToMultiple t

/-- Run one execute endpoint on the current history map; the block index a
single transfer returns is discarded so both endpoints compose. -/
def execRequest (env : Env) (r : Request) (hist : List (Nat × TransferHistory)) :
    Except String Unit × List (Nat × TransferHistory) :=
  match r with
  | .single t =>
    let res := transfer_to_principal env t hist
    (res.result.map fun _ => (), res.history)
  | .batch t =>
    let res := transfer_to_multiple env t hist
    (res.result, res.history)

/-- Whether a request succeeds; by `transfer_to_principal_hist` and
`transfer_to_multiple_hist` this does not depend on the history map. -/
def execOk (env : Env) (r : Request) : Bool := (execRequest env r []).1.isOk

/-- Run a sequence of execute requests in submission order. -/
def runAll (env : Env) : List Request → List (Nat × TransferHistory) → List (Nat × TransferHistory)
  | [], hist => hist
  | r :: rs, hist => runAll env rs (execRequest env r hist).2

/-- The records `vs` keyed consecutively from `k`. -/
def enumFrom (k : Nat) : List TransferHistory → List (Nat × TransferHistory)
  | [] => []
  | v :: vs => (k, v) :: enumFrom (k + 1) vs

/-- The keys of the history map are exactly 1, 2, ..., length: gap-free and
starting at 1 (slot 0 stays unused, matching `insert(len + 1)`). -/
def histKeysOk (hist : List (Nat × TransferHistory)) : Prop :=
  hist.map Prod.fst = List.range' 1 hist.length

theorem histKeysOk_nil : histKeysOk [] := rfl

theorem histKeysOk_lt (hist : List (Nat × TransferHistory)) (h : histKeysOk hist) :
    ∀ kv ∈ hist, kv.1 < hist.length + 1 := by
  intro kv hkv
  have hmem : kv.1 ∈ hist.map Prod.fst := List.mem_map_of_mem Prod.fst hkv
  rw [h] at hmem
  obtain ⟨i, hi, hm⟩ := List.mem_range'.mp hmem
  omega

theorem histKeysOk_append (hist : List (Nat × TransferHistory)) (v : TransferHistory)
    (h : histKeysOk hist) : histKeysOk (hist ++ [(hist.length + 1, v)]) := by
  unfold histKeysOk
  rw [List.map_append, h, List.length_append]
  simp [List.range'_concat, Nat.add_comm]

theorem exceptMap_isOk {ε α β : Type} (f : α → β) (e : Except ε α) :
    (e.map f).isOk = e.isOk := by
  cases e <;> simp [Except.map, Except.isOk, Except.toBool]

theorem execRequest_step (env : Env) (r : Request) (hist : List (Nat × TransferHistory))
    (hkeys : histKeysOk hist) (hok : execOk env r = true) :
    (execRequest env r hist).2 = hist ++ [(hist.length + 1, recordOf r)] ∧
    (execRequest env r hist).1.isOk = true := by
  have hlt := histKeysOk_lt hist hkeys
  cases r with
  | single t =>
    have h := transfer_to_principal_hist env t hist []
    simp only [execOk, execRequest] at hok
    simp only [execRequest]
    simp only [exceptMap_isOk] at hok ⊢
    rw [← h.1] at hok
    refine ⟨?_, hok⟩
    rw [h.2.1 hok, btreeInsert_append _ _ hist (fun kv hkv => hlt kv hkv)]
    rfl
  | batch t =>
    have h := transfer_to_multiple_hist env t hist []
    simp only [execOk, execRequest] at hok
    simp only [execRequest]
    rw [← h.1] at hok
    refine ⟨?_, hok⟩
    rw [h.2.1 hok, btreeInsert_append _ _ hist (fun kv hkv => hlt kv hkv)]
    rfl

theorem runAll_spec (env : Env) :
    ∀ (rs : List Request) (hist : List (Nat × TransferHistory)),
      histKeysOk hist → (∀ r ∈ rs, execOk env r = true) →
      runAll env rs hist = hist ++ enumFrom (hist.length + 1) (rs.map recordOf) ∧
      histKeysOk (runAll env rs hist)
  | [], hist, hkeys, _ => by simp [runAll, enumFrom, hkeys]
  | r :: rs, hist, hkeys, hok => by
    have hstep := execRequest_step env r hist hkeys (hok r (by simp))
    have hkeys2 : histKeysOk (execRequest env r hist).2 := by
      rw [hstep.1]; exact histKeysOk_append hist (recordOf r) hkeys
    have ih := runAll_spec env rs (execRequest env r hist).2 hkeys2
      (fun q hq => hok q (by simp [hq]))
    constructor
    · rw [runAll, ih.1, hstep.1]
      simp [enumFrom, List.append_assoc]
    · rw [runAll]; exact ih.2

theorem enumFrom_length (k : Nat) : ∀ vs : List TransferHistory, (enumFrom k vs).length = vs.length
  | [] => rfl
  | v :: vs => by simp [enumFrom, enumFrom_length (k + 1) vs]

theorem enumFrom_snd (k : Nat) : ∀ vs : List TransferHistory, (enumFrom k vs).map Prod.snd = vs
  | [] => rfl
  | v :: vs => by simp [enumFrom, enumFrom_snd (k + 1) vs]

end Treasury

namespace Treasury

/-- A non-anonymous test principal. -/
def pAlpha : Principal := ⟨"aaaaa-aa"⟩

/-- A second non-anonymous test principal. -/
def pBeta : Principal := ⟨"bbbbb-bb"⟩

/-- A third non-anonymous test principal. -/
def pGamma : Principal := ⟨"ccccc-cc"⟩

/-- A test ledger canister principal. -/
def pLedger : Principal := ⟨"ryjl3-tyaaa-aaaaa-aaaba-cai"⟩

/-- The test controller principal. -/
def pCtrl : Principal := ⟨"h4fqs-controller"⟩

/-- An environment whose caller is not in the reported controller set. -/
def envStranger : Env :=
  { caller := pAlpha, oracle := .ok [pCtrl], balance := fun _ => .ok 1000,
    ledger := fun _ => .ok 7, now := 42 }

/-- An environment whose caller is the controller, with ample balance and a
ledger that accepts every transfer at block index 7. -/
def envCtrl : Env :=
  { caller := pCtrl, oracle := .ok [pCtrl], balance := fun _ => .ok 1000,
    ledger := fun _ => .ok 7, now := 42 }

/-- Like `envCtrl` but with treasury balance 100. -/
def envLow : Env :=
  { caller := pCtrl, oracle := .ok [pCtrl], balance := fun _ => .ok 100,
    ledger := fun _ => .ok 7, now := 42 }

/-- Like `envCtrl` but the ledger rejects any transfer to `pBeta`. -/
def envFail2nd : Env :=
  { caller := pCtrl, oracle := .ok [pCtrl], balance := fun _ => .ok 1000,
    ledger := fun c => if c.to_owner = pBeta then .error "ledger transfer error boom" else .ok 7,
    now := 42 }

/-- A valid single request for 5 tokens. -/
def argSingleOk : TransferToPrincipal :=
  { receiving_principal := pAlpha, amount := 5, ledger_id := pLedger }

/-- The spec's insufficient-balance scenario request: 150 tokens. -/
def argSingle150 : TransferToPrincipal :=
  { receiving_principal := pAlpha, amount := 150, ledger_id := pLedger }

/-- A valid batch of three recipients. -/
def argBatch3 : TransferToMultiple :=
  { principals := [⟨pAlpha, 10⟩, ⟨pBeta, 20⟩, ⟨pGamma, 30⟩], ledger_id := pLedger }

/-- A batch whose only recipient is the anonymous principal. -/
def argAnonBatch : TransferToMultiple :=
  { principals := [⟨Principal.anonymous, 5⟩], ledger_id := pLedger }

/-- C1: for every caller that is not a controller, both mutating endpoints
(`transfer_to_principal` and `transfer_to_multiple`) return the unauthorized
error "Caller is not a controller", leave the History Ledger unchanged, issue
no ledger transfer call and make no balance query. -/
theorem C1_unauthorized_mutations_rejected (env : Env)
    (h : is_controller env env.caller = false) :
    (∀ (arg : TransferToPrincipal) (hist : List (Nat × TransferHistory)),
      transfer_to_principal env arg hist =
        { result := .error "Caller is not a controller", history := hist,
          calls := [], balanceQueries := 0 }) ∧
    (∀ (arg : TransferToMultiple) (hist : List (Nat × TransferHistory)),
      transfer_to_multiple env arg hist =
        { result := .error "Caller is not a controller", history := hist,
          calls := [], balanceQueries := 0 }) := by
  constructor <;> intro arg hist <;> simp [transfer_to_principal, transfer_to_multiple, h]

/-- Witness for C1: a concrete caller outside the controller set is rejected
with no effect. -/
theorem C1_unauthorized_mutations_rejected_witness :
    is_controller envStranger envStranger.caller = false ∧
    transfer_to_principal envStranger argSingleOk [] =
      { result := .error "Caller is not a controller", history := [],
        calls := [], balanceQueries := 0 } ∧
    transfer_to_multiple envStranger argBatch3 [] =
      { result := .error "Caller is not a controller", history := [],
        calls := [], balanceQueries := 0 } := by
  have h := C1_unauthorized_mutations_rejected envStranger (by decide)
  exact ⟨by decide, h.1 argSingleOk [], h.2 argBatch3 []⟩

/-- The substring scan agrees with the infix relation on character lists. -/
theorem containsAux_infix_iff (pat : List Char) : ∀ l : List Char, containsAux pat l = true ↔ pat <:+: l
  | [] => by simp [containsAux, List.isEmpty_iff, List.infix_nil]
  | c :: rest => by
    simp only [containsAux, Bool.or_eq_true, List.isPrefixOf_iff_prefix,
      containsAux_infix_iff pat rest]
    exact List.infix_cons_iff.symm

/-- C3: `is_controller` returns true exactly when the `canister_status`
oracle succeeds and the caller is in the reported controller set, or the
oracle fails and the rendered error text contains the caller's own principal
text as a substring (fail-open fallback); it returns false otherwise. -/
theorem C3_is_controller_characterization (env : Env) (p : Principal) :
    is_controller env p = true ↔
      ((∃ controllers, env.oracle = .ok controllers ∧ p ∈ controllers) ∨
       (∃ e, env.oracle = .error e ∧ p.toText.data <:+: e.data)) := by
  cases ho : env.oracle with
  | ok ctrls =>
    simp only [is_controller, ho, Except.ok.injEq, Except.error.injEq]
    constructor
    · intro h
      exact Or.inl ⟨ctrls, rfl, List.elem_iff.mp h⟩
    · rintro (⟨c, hc, hm⟩ | ⟨e, he, _⟩)
      · cases hc; exact List.elem_iff.mpr hm
      · cases he
  | error e =>
    simp only [is_controller, ho, Except.ok.injEq, Except.error.injEq]
    rw [strContains, containsAux_infix_iff]
    constructor
    · intro h
      exact Or.inr ⟨e, rfl, h⟩
    · rintro (⟨c, hc, _⟩ | ⟨f, hf, hinf⟩)
      · cases hc
      · cases hf; exact hinf

/-- C9: `validate_transfer_to_principal` checks in order, short-circuiting:
zero amount, anonymous destination, anonymous ledger, each with its own
error; when all pass it returns the summary with amount, destination and
ledger. -/
theorem C9_validate_single_checks (arg : TransferToPrincipal) :
    (arg.amount = 0 →
      validate_transfer_to_principal arg = .error "Transfer amount must be greater than 0") ∧
    (arg.amount ≠ 0 → arg.receiving_principal = Principal.anonymous →
      validate_transfer_to_principal arg = .error "Cannot transfer to anonymous principal") ∧
    (arg.amount ≠ 0 → arg.receiving_principal ≠ Principal.anonymous →
      arg.ledger_id = Principal.anonymous →
      validate_transfer_to_principal arg = .error "Invalid ledger ID") ∧
    (arg.amount ≠ 0 → arg.receiving_principal ≠ Principal.anonymous →
      arg.ledger_id ≠ Principal.anonymous →
      validate_transfer_to_principal arg =
        .ok ("Transfer " ++ toString arg.amount ++ " tokens to principal "
          ++ arg.receiving_principal.toText ++ " from ledger " ++ arg.ledger_id.toText)) := by
  refine ⟨?_, ?_, ?_, ?_⟩ <;> intros <;> simp_all [validate_transfer_to_principal]

/-- Witness for C9: the concrete valid request yields its summary. -/
theorem C9_validate_single_checks_witness :
    validate_transfer_to_principal argSingleOk =
      .ok "Transfer 5 tokens to principal aaaaa-aa from ledger ryjl3-tyaaa-aaaaa-aaaba-cai" :=
  (C9_validate_single_checks argSingleOk).2.2.2 (by decide) (by decide) (by decide)

end Treasury

namespace Treasury

/-- C5: for an authorized, validated request whose queried balance is
strictly below the requested amount (single) or the batch total, the
operation returns the insufficient-balance error, issues no transfer call
and leaves the history unchanged; when the amount is at most the balance
(equality included) execution proceeds to the ledger call. -/
theorem C5_insufficient_balance (env : Env) :
    (∀ (arg : TransferToPrincipal) (hist : List (Nat × TransferHistory)) (b : Nat),
      is_controller env env.caller = true →
      (validate_transfer_to_principal arg).isOk = true →
      env.balance arg.ledger_id = .ok b → b < arg.amount →
      transfer_to_principal env arg hist =
        { result := .error ("Insufficient balance: " ++ toString b ++ " tokens available, "
            ++ toString arg.amount ++ " tokens requested"),
          history := hist, calls := [], balanceQueries := 1 }) ∧
    (∀ (arg : TransferToMultiple) (hist : List (Nat × TransferHistory)) (b : Nat),
      is_controller env env.caller = true →
      (validate_transfer_to_multiple arg).isOk = true →
      env.balance arg.ledger_id = .ok b → b < batchTotal arg.principals →
      transfer_to_multiple env arg hist =
        { result := .error ("Insufficient balance: " ++ toString b ++ " tokens available, "
            ++ toString (batchTotal arg.principals) ++ " tokens requested"),
          history := hist, calls := [], balanceQueries := 1 }) ∧
    (∀ (arg : TransferToPrincipal) (hist : List (Nat × TransferHistory)) (b : Nat),
      is_controller env env.caller = true →
      (validate_transfer_to_principal arg).isOk = true →
      env.balance arg.ledger_id = .ok b → arg.amount ≤ b →
      (transfer_to_principal env arg hist).calls = [mkSingleCall env arg]) ∧
    (∀ (arg : TransferToMultiple) (hist : List (Nat × TransferHistory)) (b : Nat)
        (p : PrincipalTransfer) (rest : List PrincipalTransfer),
      is_controller env env.caller = true →
      (validate_transfer_to_multiple arg).isOk = true →
      env.balance arg.ledger_id = .ok b → batchTotal arg.principals ≤ b →
      arg.principals = p :: rest →
      (transfer_to_multiple env arg hist).calls.head? =
        some (mkBatchCall env arg.ledger_id p)) := by
  refine ⟨?_, ?_, ?_, ?_⟩
  · intro arg hist b hauth hval hbal hlt
    obtain ⟨s, hs⟩ := (exceptIsOk_iff _).mp hval
    simp [transfer_to_principal, hauth, hs, hbal, hlt]
  · intro arg hist b hauth hval hbal hlt
    obtain ⟨s, hs⟩ := (exceptIsOk_iff _).mp hval
    simp [transfer_to_multiple, hauth, hs, hbal, hlt]
  · intro arg hist b hauth hval hbal hle
    obtain ⟨s, hs⟩ := (exceptIsOk_iff _).mp hval
    have hnl : ¬ b < arg.amount := Nat.not_lt.mpr hle
    cases hl : env.ledger (mkSingleCall env arg) <;>
      simp [transfer_to_principal, hauth, hs, hbal, hnl, hl]
  · intro arg hist b p rest hauth hval hbal hle hsplit
    obtain ⟨s, hs⟩ := (exceptIsOk_iff _).mp hval
    have hnl : ¬ b < batchTotal arg.principals := Nat.not_lt.mpr hle
    have hrun : (runBatchCalls env arg.ledger_id arg.principals).2.head? =
        some (mkBatchCall env arg.ledger_id p) := by
      rw [hsplit]
      cases hl : env.ledger (mkBatchCall env arg.ledger_id p) <;>
        simp [runBatchCalls, hl]
    cases hr : (runBatchCalls env arg.ledger_id arg.principals).1 <;>
      simp [transfer_to_multiple, hauth, hs, hbal, hnl, hr, hrun]

/-- Witness for C5: the spec scenario, balance 100 and a single request for
150, is rejected with no ledger call; the same request against balance 1000
issues its one call. -/
theorem C5_insufficient_balance_witness :
    transfer_to_principal envLow argSingle150 [] =
      { result := .error "Insufficient balance: 100 tokens available, 150 tokens requested",
        history := [], calls := [], balanceQueries := 1 } ∧
    (transfer_to_principal envCtrl argSingle150 []).calls = [mkSingleCall envCtrl argSingle150] := by
  constructor
  · have h := (C5_insufficient_balance envLow).1 argSingle150 [] 100
      (by decide) (by decide) rfl (by decide)
    exact h
  · exact (C5_insufficient_balance envCtrl).2.2.1 argSingle150 [] 1000
      (by decide) (by decide) rfl (by decide)

end Treasury

namespace Treasury

/-- C4: an authorized, valid single request with sufficient balance issues
exactly one ledger transfer call (for the request's destination and amount);
on ledger success it returns the block index and appends exactly one record
(the request verbatim) at key length + 1; on ledger failure it returns the
error and leaves the history unchanged. -/
theorem C4_single_execute (env : Env) (arg : TransferToPrincipal)
    (hist : List (Nat × TransferHistory)) (b : Nat)
    (hauth : is_controller env env.caller = true)
    (hval : (validate_transfer_to_principal arg).isOk = true)
    (hbal : env.balance arg.ledger_id = .ok b)
    (hsuff : arg.amount ≤ b)
    (hkeys : ∀ kv ∈ hist, kv.1 ≤ hist.length) :
    (transfer_to_principal env arg hist).calls = [mkSingleCall env arg] ∧
    (∀ blk, env.ledger (mkSingleCall env arg) = .ok blk →
      (transfer_to_principal env arg hist).result = .ok blk ∧
      (transfer_to_principal env arg hist).history =
        hist ++ [(hist.length + 1, TransferHistory.TransferToPrincipal arg)]) ∧
    (∀ e, env.ledger (mkSingleCall env arg) = .error e →
      (transfer_to_principal env arg hist).result = .error e ∧
      (transfer_to_principal env arg hist).history = hist) := by
  obtain ⟨s, hs⟩ := (exceptIsOk_iff _).mp hval
  have hnl : ¬ b < arg.amount := Nat.not_lt.mpr hsuff
  have happ := btreeInsert_append (hist.length + 1) (TransferHistory.TransferToPrincipal arg)
    hist (fun kv hkv => Nat.lt_succ_of_le (hkeys kv hkv))
  refine ⟨?_, ?_, ?_⟩
  · cases hl : env.ledger (mkSingleCall env arg) <;>
      simp [transfer_to_principal, hauth, hs, hbal, hnl, hl]
  · intro blk hl
    simp [transfer_to_principal, hauth, hs, hbal, hnl, hl, happ]
  · intro e hl
    simp [transfer_to_principal, hauth, hs, hbal, hnl, hl]

/-- Witness for C4: the concrete authorized request transfers at block 7 and
appends its record at key 1. -/
theorem C4_single_execute_witness :
    (transfer_to_principal envCtrl argSingleOk []).result = .ok 7 ∧
    (transfer_to_principal envCtrl argSingleOk []).history =
      [(1, TransferHistory.TransferToPrincipal argSingleOk)] ∧
    (transfer_to_principal envCtrl argSingleOk []).calls = [mkSingleCall envCtrl argSingleOk] := by
  have h := C4_single_execute envCtrl argSingleOk [] 1000
    (by decide) (by decide) rfl (by decide) (by simp)
  have hok := h.2.1 7 rfl
  exact ⟨hok.1, by simpa using hok.2, h.1⟩

/-- C2: for an authorized, validated batch with sufficient balance, a
failure at one recipient's ledger call aborts the loop: the batch returns
that error, no call is issued for later recipients (the calls are exactly
those for the earlier recipients and the failing one) and no history record
is appended; when every recipient's call succeeds the single batch record is
inserted at key length + 1. -/
theorem C2_batch_fail_fast (env : Env) (arg : TransferToMultiple)
    (hist : List (Nat × TransferHistory)) (b : Nat)
    (hauth : is_controller env env.caller = true)
    (hval : (validate_transfer_to_multiple arg).isOk = true)
    (hbal : env.balance arg.ledger_id = .ok b)
    (hsuff : batchTotal arg.principals ≤ b) :
    (∀ (pre : List PrincipalTransfer) (p : PrincipalTransfer)
        (post : List PrincipalTransfer) (e : String),
      arg.principals = pre ++ p :: post →
      (∀ q ∈ pre, (env.ledger (mkBatchCall env arg.ledger_id q)).isOk = true) →
      env.ledger (mkBatchCall env arg.ledger_id p) = .error e →
      (transfer_to_multiple env arg hist).result = .error e ∧
      (transfer_to_multiple env arg hist).history = hist ∧
      (transfer_to_multiple env arg hist).calls =
        (pre ++ [p]).map (mkBatchCall env arg.ledger_id)) ∧
    ((∀ q ∈ arg.principals, (env.ledger (mkBatchCall env arg.ledger_id q)).isOk = true) →
      (transfer_to_multiple env arg hist).result = .ok () ∧
      (transfer_to_multiple env arg hist).history =
        btreeInsert (hist.length + 1) (TransferHistory.TransferToMultiple arg) hist ∧
      (transfer_to_multiple env arg hist).calls =
        arg.principals.map (mkBatchCall env arg.ledger_id)) := by
  obtain ⟨s, hs⟩ := (exceptIsOk_iff _).mp hval
  have hnl : ¬ b < batchTotal arg.principals := Nat.not_lt.mpr hsuff
  constructor
  · intro pre p post e hsplit hpre hfail
    have hrun : runBatchCalls env arg.ledger_id arg.principals =
        (.error e, (pre ++ [p]).map (mkBatchCall env arg.ledger_id)) := by
      rw [hsplit]
      exact runBatchCalls_fail env arg.ledger_id p post e pre hpre hfail
    simp [transfer_to_multiple, hauth, hs, hbal, hnl, hrun]
  · intro hall
    have hrun := runBatchCalls_ok env arg.ledger_id arg.principals hall
    simp [transfer_to_multiple, hauth, hs, hbal, hnl, hrun]

/-- Witness for C2: the spec scenario, a batch of three recipients whose
second ledger call is rejected: the error propagates, exactly two calls were
issued and the history stays empty. -/
theorem C2_batch_fail_fast_witness :
    (transfer_to_multiple envFail2nd argBatch3 []).result = .error "ledger transfer error boom" ∧
    (transfer_to_multiple envFail2nd argBatch3 []).history = [] ∧
    (transfer_to_multiple envFail2nd argBatch3 []).calls =
      [mkBatchCall envFail2nd pLedger ⟨pAlpha, 10⟩, mkBatchCall envFail2nd pLedger ⟨pBeta, 20⟩] := by
  have h := (C2_batch_fail_fast envFail2nd argBatch3 [] 1000
      (by decide) (by decide) rfl (by decide)).1
    [⟨pAlpha, 10⟩] ⟨pBeta, 20⟩ [⟨pGamma, 30⟩] "ledger transfer error boom"
    rfl (by decide) rfl
  exact ⟨h.1, h.2.1, by simpa using h.2.2⟩

end Treasury

namespace Treasury

/-- C6: starting from a history whose keys are exactly 1..length, running any
sequence of execute requests that all succeed appends exactly one record per
request, keyed consecutively from length + 1; hence after N successful
executes the count grows by N, the listed records extend the old ones by the
submitted records in submission order, and the keys remain the gap-free,
strictly increasing range 1..length + N (never reused). -/
theorem C6_history_append_monotonic (env : Env) (rs : List Request)
    (hist : List (Nat × TransferHistory))
    (hkeys : histKeysOk hist)
    (hok : ∀ r ∈ rs, execOk env r = true) :
    runAll env rs hist = hist ++ enumFrom (hist.length + 1) (rs.map recordOf) ∧
    (runAll env rs hist).length = hist.length + rs.length ∧
    get_transfer_history (runAll env rs hist) =
      get_transfer_history hist ++ rs.map recordOf ∧
    (runAll env rs hist).map Prod.fst = List.range' 1 (hist.length + rs.length) := by
  have h := runAll_spec env rs hist hkeys hok
  have hlen : (runAll env rs hist).length = hist.length + rs.length := by
    rw [h.1]; simp [enumFrom_length]
  refine ⟨h.1, hlen, ?_, ?_⟩
  · rw [get_transfer_history, get_transfer_history, h.1]
    simp [enumFrom_snd]
  · have h2 := h.2
    rw [histKeysOk, hlen] at h2
    exact h2

/-- Witness for C6: two successful executes from the empty history produce
records at keys 1 and 2 in submission order. -/
theorem C6_history_append_monotonic_witness :
    runAll envCtrl [Request.single argSingleOk, Request.batch argBatch3] [] =
      [(1, TransferHistory.TransferToPrincipal argSingleOk),
       (2, TransferHistory.TransferToMultiple argBatch3)] ∧
    get_transfer_history (runAll envCtrl [Request.single argSingleOk, Request.batch argBatch3] []) =
      [TransferHistory.TransferToPrincipal argSingleOk,
       TransferHistory.TransferToMultiple argBatch3] := by
  have h := C6_history_append_monotonic envCtrl
    [Request.single argSingleOk, Request.batch argBatch3] [] histKeysOk_nil (by decide)
  constructor
  · simpa [enumFrom, recordOf] using h.1
  · simpa [recordOf, get_transfer_history] using h.2.2.1

/-- Every recipient amount non-zero lets the zero-amount scan succeed. -/
theorem checkAmounts_ok : ∀ ps : List PrincipalTransfer,
    (∀ p ∈ ps, p.amount ≠ 0) → checkAmounts ps = .ok ()
  | [], _ => rfl
  | p :: rest, h => by
    have h0 : ¬ p.amount = 0 := h p (by simp)
    simp only [checkAmounts, if_neg h0]
    exact checkAmounts_ok rest (fun q hq => h q (by simp [hq]))

/-- A batch with a non-empty recipient list, non-zero amounts and a
non-anonymous ledger passes batch validation. -/
theorem validate_multiple_isOk (arg : TransferToMultiple)
    (h1 : arg.principals ≠ []) (h2 : ∀ p ∈ arg.principals, p.amount ≠ 0)
    (h3 : arg.ledger_id ≠ Principal.anonymous) :
    (validate_transfer_to_multiple arg).isOk = true := by
  simp [validate_transfer_to_multiple, h1, checkAmounts_ok arg.principals h2, h3,
    Except.isOk, Except.toBool]

/-- A single request with non-zero amount and non-anonymous destination and
ledger passes single validation. -/
theorem validate_single_isOk (arg : TransferToPrincipal)
    (h1 : arg.amount ≠ 0) (h2 : arg.receiving_principal ≠ Principal.anonymous)
    (h3 : arg.ledger_id ≠ Principal.anonymous) :
    (validate_transfer_to_principal arg).isOk = true := by
  simp [validate_transfer_to_principal, h1, h2, h3, Except.isOk, Except.toBool]

/-- Counterexample to C7: with a caller demonstrably outside the controller
set, both validating endpoints still return a success verdict rather than an
unauthorized error (they never consult the guard). -/
theorem C7_counterexample_validators_skip_guard :
    is_controller envStranger envStranger.caller = false ∧
    (validate_transfer_to_principal argSingleOk).isOk = true ∧
    (validate_transfer_to_multiple argBatch3).isOk = true := by decide

/-- C7 (amended): only the mutating endpoints call the authorization guard
first and reject non-controllers; the validating endpoints perform no
authorization check at all and return their validation verdict for any
caller, so an unauthorized caller still receives a success summary for a
well-formed request. -/
theorem C7_amended_validators_unguarded :
    (∀ (env : Env) (arg : TransferToPrincipal) (hist : List (Nat × TransferHistory)),
      is_controller env env.caller = false →
      (transfer_to_principal env arg hist).result = .error "Caller is not a controller") ∧
    (∀ (env : Env) (arg : TransferToMultiple) (hist : List (Nat × TransferHistory)),
      is_controller env env.caller = false →
      (transfer_to_multiple env arg hist).result = .error "Caller is not a controller") ∧
    (∀ (env : Env) (arg : TransferToPrincipal),
      is_controller env env.caller = false →
      arg.amount ≠ 0 → arg.receiving_principal ≠ Principal.anonymous →
      arg.ledger_id ≠ Principal.anonymous →
      (validate_transfer_to_principal arg).isOk = true) ∧
    (∀ (env : Env) (arg : TransferToMultiple),
      is_controller env env.caller = false →
      arg.principals ≠ [] → (∀ p ∈ arg.principals, p.amount ≠ 0) →
      arg.ledger_id ≠ Principal.anonymous →
      (validate_transfer_to_multiple arg).isOk = true) := by
  refine ⟨?_, ?_, ?_, ?_⟩
  · intro env arg hist h
    simp [transfer_to_principal, h]
  · intro env arg hist h
    simp [transfer_to_multiple, h]
  · intro env arg _ h1 h2 h3
    exact validate_single_isOk arg h1 h2 h3
  · intro env arg _ h1 h2 h3
    exact validate_multiple_isOk arg h1 h2 h3

/-- Witness for C7 (amended): the stranger caller is refused by the mutating
endpoint yet the validating endpoint answers with a success verdict. -/
theorem C7_amended_validators_unguarded_witness :
    (transfer_to_principal envStranger argSingleOk []).result = .error "Caller is not a controller" ∧
    (validate_transfer_to_multiple argBatch3).isOk = true := by
  constructor
  · exact C7_amended_validators_unguarded.1 envStranger argSingleOk [] (by decide)
  · exact C7_amended_validators_unguarded.2.2.2 envStranger argBatch3 (by decide)
      (by decide) (by decide) (by decide)

/-- Counterexample to C8: a batch whose only recipient is the anonymous
principal passes batch validation with a success summary. -/
theorem C8_counterexample_anonymous_recipient_accepted :
    validate_transfer_to_multiple argAnonBatch =
      .ok "Transfer 5 tokens to 1 recipients from ledger ryjl3-tyaaa-aaaaa-aaaba-cai" ∧
    argAnonBatch.principals = [⟨Principal.anonymous, 5⟩] := by
  exact ⟨rfl, rfl⟩

/-- C8 (amended): batch validation does not examine recipients for
anonymity: every batch with a non-empty recipient list, all amounts
non-zero and a non-anonymous ledger passes validation, even when recipients
include the anonymous sentinel; only the single-transfer validator rejects
an anonymous destination. -/
theorem C8_amended_no_anonymous_recipient_check :
    (∀ arg : TransferToMultiple,
      arg.principals ≠ [] → (∀ p ∈ arg.principals, p.amount ≠ 0) →
      arg.ledger_id ≠ Principal.anonymous →
      (validate_transfer_to_multiple arg).isOk = true) ∧
    (∀ arg : TransferToPrincipal,
      arg.amount ≠ 0 → arg.receiving_principal = Principal.anonymous →
      validate_transfer_to_principal arg = .error "Cannot transfer to anonymous principal") := by
  constructor
  · intro arg h1 h2 h3
    exact validate_multiple_isOk arg h1 h2 h3
  · intro arg h1 h2
    simp [validate_transfer_to_principal, h1, h2]

/-- Witness for C8 (amended): the anonymous-recipient batch itself passes
validation. -/
theorem C8_amended_no_anonymous_recipient_check_witness :
    (validate_transfer_to_multiple argAnonBatch).isOk = true :=
  C8_amended_no_anonymous_recipient_check.1 argAnonBatch (by decide) (by decide) (by decide)

/-- The overflow batch: two u64 amounts whose true sum is 2^64 + 100. -/
def argWrap : TransferToMultiple :=
  { principals := [⟨pAlpha, 2 ^ 63⟩, ⟨pBeta, 2 ^ 63 + 100⟩], ledger_id := pLedger }

/-- Like `envCtrl` but with treasury balance 150. -/
def envWrap : Env :=
  { caller := pCtrl, oracle := .ok [pCtrl], balance := fun _ => .ok 150,
    ledger := fun _ => .ok 7, now := 42 }

/-- C10: the batch total is the u64 sum of the amounts modulo 2^64, in the
validation summary and in the sufficiency check alike: this concrete batch of
two in-range u64 amounts has true sum 2^64 + 100 but wrapped total 100, its
validation summary reports 100 tokens, and against a balance of 150 — far
below the true total — the sufficiency check passes and both transfers are
issued. -/
theorem C10_wrapped_total_accepts_overflowing_batch :
    batchTotal argWrap.principals = 100 ∧
    (argWrap.principals.map PrincipalTransfer.amount).sum = 2 ^ 64 + 100 ∧
    (∀ p ∈ argWrap.principals, p.amount < 2 ^ 64 ∧ 0 < p.amount) ∧
    validate_transfer_to_multiple argWrap =
      .ok "Transfer 100 tokens to 2 recipients from ledger ryjl3-tyaaa-aaaaa-aaaba-cai" ∧
    envWrap.balance argWrap.ledger_id = .ok 150 ∧
    150 < (argWrap.principals.map PrincipalTransfer.amount).sum ∧
    (transfer_to_multiple envWrap argWrap []).result = .ok () ∧
    (transfer_to_multiple envWrap argWrap []).calls.length = 2 := by
  refine ⟨by decide, by decide, by decide, rfl, rfl, by decide, rfl, rfl⟩

end Treasury
